import Mathlib

/-!
Verification of the credential-vault core of the John-Flavortown bot:
`bot/crypto.py`, `bot/http.py`, `bot/storage.py` and `bot/cogs/login.py`,
shallowly embedded in Lean 4.

Third-party primitives (the `cryptography` library's PBKDF2HMAC and Fernet,
Python's `base64`) are modelled symbolically as ideal injective operations, so
that the repository code's own structure — the composition of the pipeline,
the `try/except` coverage, the retry loop, the cache and store bookkeeping —
is what the theorems exercise.
-/

namespace Crypto

/-- Python exceptions relevant to `bot/crypto.py`.  `invalidToken` is
`cryptography.fernet.InvalidToken`; `valueError` covers `ValueError` and its
subclasses `binascii.Error` (malformed base64) and `UnicodeDecodeError`
(plaintext that is not valid UTF-8); `otherExc` is any other exception. -/
inductive PyExc where
  | invalidToken
  | valueError
  | otherExc (msg : String)
deriving DecidableEq, Repr

/-- Symbolic model of Python `bytes` values flowing through `bot/crypto.py`.
Each constructor records which operation produced the byte string:
`utf8 s` is `s.encode()`, `urandom seed` is a 16-byte `os.urandom(16)` draw,
`kdfOut` is the 32-byte PBKDF2-HMAC-SHA256 output (480000 iterations,
idealized as injective in password and salt), `b64 b` is
`base64.urlsafe_b64encode(b)`, `fernetTok key msg nonce` is a Fernet token
(idealized authenticated encryption: the HMAC tag binds the key and payload,
`nonce` is the token's internal random IV), and `junk` is any other
attacker-supplied byte string. -/
inductive PyBytes where
  | utf8 (s : String)
  | urandom (seed : Nat)
  | kdfOut (password : String) (salt : PyBytes)
  | b64 (b : PyBytes)
  | fernetTok (key : PyBytes) (msg : PyBytes) (nonce : Nat)
  | junk (n : Nat)
deriving DecidableEq, Repr

/-- Symbolic model of Python `str` values: `lit s` is an ordinary string,
`ascii b` is `b.decode()` of the (ASCII) output of `urlsafe_b64encode`. -/
inductive PyStr where
  | lit (s : String)
  | ascii (b : PyBytes)
deriving DecidableEq, Repr

/-- Python `str.encode()`: UTF-8 bytes of a literal; re-encoding the decoded
ASCII of a byte string gives back those bytes. -/
def strEncode : PyStr → PyBytes
  | .lit s => .utf8 s
  | .ascii b => b

/-- `base64.urlsafe_b64encode`. -/
def urlsafe_b64encode (b : PyBytes) : PyBytes := .b64 b

/-- `base64.urlsafe_b64decode`: inverts `urlsafe_b64encode`; on any byte
string that is not a base64 encoding it raises `binascii.Error`, a subclass
of `ValueError`. -/
def urlsafe_b64decode : PyBytes → Except PyExc PyBytes
  | .b64 b => .ok b
  | _ => .error .valueError

/-- `_derive_key` from `bot/crypto.py`: PBKDF2-HMAC-SHA256 over the encoded
password with the given salt, then `urlsafe_b64encode` of the 32-byte output
(the Fernet key format). -/
def derive_key (password : String) (salt : PyBytes) : PyBytes :=
  urlsafe_b64encode (.kdfOut password salt)

/-- `Fernet(key).encrypt(msg)`: an authenticated token over `msg` under
`key`, with a fresh internal IV `nonce`. -/
def fernetEncrypt (key : PyBytes) (nonce : Nat) (msg : PyBytes) : PyBytes :=
  .fernetTok key msg nonce

/-- `Fernet(key).decrypt(t)`: verifies the token's HMAC under `key` and
returns the payload; any key mismatch or non-token input raises
`InvalidToken`. -/
def fernetDecrypt (key : PyBytes) : PyBytes → Except PyExc PyBytes
  | .fernetTok k m _ => if k = key then .ok m else .error .invalidToken
  | _ => .error .invalidToken

/-- Python `bytes.decode()` (UTF-8): recovers the string from `str.encode()`
output; on bytes that are not valid UTF-8 raises `UnicodeDecodeError`, a
subclass of `ValueError`. -/
def bytesDecode : PyBytes → Except PyExc String
  | .utf8 s => .ok s
  | _ => .error .valueError

/-- `encrypt_api_key` from `bot/crypto.py`: draw a fresh 16-byte salt,
derive a key, Fernet-encrypt the UTF-8 api key, and return the
base64-encoded token and salt as storage strings.  The nondeterministic
draws (`os.urandom` seed, Fernet IV) are explicit parameters. -/
def encrypt_api_key (api_key password : String) (saltSeed nonce : Nat) :
    PyStr × PyStr :=
  let salt := PyBytes.urandom saltSeed
  let key := derive_key password salt
  let encrypted := fernetEncrypt key nonce (.utf8 api_key)
  (.ascii (urlsafe_b64encode encrypted), .ascii (urlsafe_b64encode salt))

/-- `decrypt_api_key` from `bot/crypto.py`: base64-decode the stored
ciphertext and salt, re-derive the key, Fernet-decrypt, UTF-8-decode.  The
`try/except (InvalidToken, ValueError)` handler maps those two exception
classes to `None`; any other exception would propagate (`Except.error`). -/
def decrypt_api_key (encrypted_key_b64 salt_b64 : PyStr) (password : String) :
    Except PyExc (Option String) :=
  let body : Except PyExc String := do
    let encrypted ← urlsafe_b64decode (strEncode encrypted_key_b64)
    let salt ← urlsafe_b64decode (strEncode salt_b64)
    let key := derive_key password salt
    let decrypted ← fernetDecrypt key encrypted
    bytesDecode decrypted
  match body with
  | .ok s => .ok (some s)
  | .error .invalidToken => .ok none
  | .error .valueError => .ok none
  | .error e => .error e

/-- The value `decrypt_api_key` hands to callers in `bot/cogs/login.py`
(no exception escapes it, see the totality theorem). -/
def decryptValue (encrypted_key_b64 salt_b64 : PyStr) (password : String) :
    Option String :=
  match decrypt_api_key encrypted_key_b64 salt_b64 password with
  | .ok r => r
  | .error _ => none

end Crypto

namespace Http

/-- Outcome of one attempt of `_SESSION.request` in `bot/http.py`:
either the server answered with a status code and body text, or the
transport failed with a `requests.RequestException` (DNS, connect,
timeout). -/
inductive AttemptOutcome where
  | response (status : Nat) (body : String)
  | netError (msg : String)

/-- The module-level `_STATS` dict of `bot/http.py`: `total_calls`,
`error_calls`, and the `by_service` dict mapping a service name to its
`(total, errors)` pair (association list, first-match semantics). -/
structure Stats where
  total_calls : Nat
  error_calls : Nat
  by_service : List (String × Nat × Nat)
deriving DecidableEq, Repr

/-- The initial `_STATS` value (also what `reset_http_stats` restores). -/
def initStats : Stats := ⟨0, 0, []⟩

/-- `setdefault` plus increment of the `total` field for one service. -/
def bumpTotal : List (String × Nat × Nat) → String → List (String × Nat × Nat)
  | [], svc => [(svc, 1, 0)]
  | (k, t, e) :: rest, svc =>
    if k = svc then (k, t + 1, e) :: rest else (k, t, e) :: bumpTotal rest svc

/-- `setdefault` plus increment of the `errors` field for one service. -/
def bumpErrors : List (String × Nat × Nat) → String → List (String × Nat × Nat)
  | [], svc => [(svc, 0, 1)]
  | (k, t, e) :: rest, svc =>
    if k = svc then (k, t, e + 1) :: rest else (k, t, e) :: bumpErrors rest svc

/-- `_track_call` from `bot/http.py`. -/
def track_call (service : String) (s : Stats) : Stats :=
  { total_calls := s.total_calls + 1
    error_calls := s.error_calls
    by_service := bumpTotal s.by_service service }

/-- `_track_error` from `bot/http.py`. -/
def track_error (service : String) (s : Stats) : Stats :=
  { total_calls := s.total_calls
    error_calls := s.error_calls + 1
    by_service := bumpErrors s.by_service service }

/-- The `(total, errors)` pair recorded for a service, `(0, 0)` if absent. -/
def svcStats : List (String × Nat × Nat) → String → Nat × Nat
  | [], _ => (0, 0)
  | (k, te) :: rest, svc => if k = svc then te else svcStats rest svc

/-- `_format_error` from `bot/http.py`. -/
def format_error (action url : String) (status : Option Nat) (detail : String) :
    String :=
  let status_text := match status with
    | some n => toString n
    | none => "unknown"
  action ++ " failed (status=" ++ status_text ++ ") " ++ detail ++ " | url=" ++ url

/-- Terminal outcome of `_request`: `success body` models
`return response.json()`, `failure status msg` models
`raise error_class(_format_error(...))` with the HTTP status that was
classified (`none` for transport failures). -/
inductive ReqResult where
  | success (body : String)
  | failure (status : Option Nat) (msg : String)
deriving DecidableEq, Repr

/-- Observable result of one `_request` invocation: the terminal result, the
final `_STATS`, the `time.sleep` durations performed (in seconds), and the
number of attempts made. -/
structure RunResult where
  result : ReqResult
  stats : Stats
  sleeps : List ℚ
  attempts : Nat

/-- `max_retries = 2` in `_request`. -/
def max_retries : Nat := 2

/-- `backoffs = [0.5, 1.0]` in `_request` (seconds, as rationals). -/
def backoffs : List ℚ := [1/2, 1]

/-- The body of `_request`'s `for attempt in range(max_retries + 1)` loop,
from iteration `attempt` onwards.  Each iteration calls `_track_call`, then:
a transport error is terminal (`_track_error`, raise); a response with
status in {502, 503, 504} while `attempt < max_retries` sleeps
`backoffs[attempt]` and continues; a 401 is terminal (`_track_error`, raise
with the fixed auth detail); `raise_for_status` turns any 4xx/5xx into a
terminal `HTTPError` branch (`_track_error`, raise with the stripped body as
detail when non-empty); otherwise `response.json()` is returned. -/
def requestGo (script : Nat → AttemptOutcome) (action url service : String)
    (attempt : Nat) (stats : Stats) (sleeps : List ℚ) (attempts : Nat) :
    RunResult :=
  let stats1 := track_call service stats
  match script attempt with
  | .netError msg =>
    ⟨.failure none (format_error action url none msg),
      track_error service stats1, sleeps, attempts + 1⟩
  | .response status body =>
    if h : (status = 502 ∨ status = 503 ∨ status = 504) ∧ attempt < max_retries then
      requestGo script action url service (attempt + 1) stats1
        (sleeps ++ [backoffs.getD attempt 0]) (attempts + 1)
    else if status = 401 then
      ⟨.failure (some 401)
          (format_error action url (some 401) "Invalid API key or unauthorized access."),
        track_error service stats1, sleeps, attempts + 1⟩
    else if 400 ≤ status ∧ status < 600 then
      ⟨.failure (some status)
          (format_error action url (some status)
            (if body = "" then "HTTPError " ++ toString status else body.trim)),
        track_error service stats1, sleeps, attempts + 1⟩
    else
      ⟨.success body, stats1, sleeps, attempts + 1⟩
termination_by max_retries + 1 - attempt
decreasing_by omega

/-- `_request` from `bot/http.py`, run against a script giving each
attempt's outcome, starting from the current `_STATS` value. -/
def request (script : Nat → AttemptOutcome) (action url service : String)
    (stats : Stats) : RunResult :=
  requestGo script action url service 0 stats [] 0

/-- One observable operation against the module: an invocation of `_request`
or a `reset_http_stats`. -/
inductive HttpOp where
  | call (script : Nat → AttemptOutcome) (action url service : String)
  | reset

/-- Effect of one operation on `_STATS`. -/
def applyOp (s : Stats) : HttpOp → Stats
  | .call script action url service => (request script action url service s).stats
  | .reset => initStats

/-- `_STATS` after a sequence of invocations and resets, starting from the
module's initial value. -/
def runOps (ops : List HttpOp) : Stats := ops.foldl applyOp initStats

/-- The consistency invariant of claim C10: errors never exceed calls,
per-service errors never exceed per-service totals, and `total_calls` is the
sum of the per-service totals. -/
def statsInv (s : Stats) : Prop :=
  s.error_calls ≤ s.total_calls ∧
  (∀ p ∈ s.by_service, p.2.2 ≤ p.2.1) ∧
  s.total_calls = (s.by_service.map (fun p => p.2.1)).sum

end Http

namespace Storage

/-- A row of the legacy single-service `user_keys` table (no `service`
column): `discord_id, encrypted_key, salt, updated_at`.  The
`CURRENT_TIMESTAMP` bookkeeping columns are carried as plain naturals. -/
structure LegacyRow where
  discord_id : Nat
  encrypted_key : Crypto.PyStr
  salt : Crypto.PyStr
  updated_at : Nat
deriving DecidableEq, Repr

/-- A row of the multi-service `user_keys` table, primary key
`(discord_id, service)`.  The `created_at` / `updated_at` timestamp columns
are not modelled (no claim mentions them). -/
structure KeyRow where
  discord_id : Nat
  service : String
  encrypted_key : Crypto.PyStr
  salt : Crypto.PyStr
  metadata : Option String
deriving DecidableEq, Repr

/-- The durable layout of the database file: no `user_keys` table yet, the
legacy single-service table, or the current multi-service table. -/
inductive Schema where
  | empty
  | legacy (rows : List LegacyRow)
  | current (rows : List KeyRow)
deriving DecidableEq, Repr

/-- The `INSERT INTO user_keys ... SELECT discord_id, 'flavortown',
encrypted_key, salt, updated_at FROM user_keys_v1` of the migration:
metadata is not copied (NULL). -/
def migrateRow (r : LegacyRow) : KeyRow :=
  ⟨r.discord_id, "flavortown", r.encrypted_key, r.salt, none⟩

/-- The schema-initialization block of `_get_connection` in
`bot/storage.py`: if `user_keys` exists without a `service` column it is
renamed to `user_keys_v1`, the new table is created, all rows are copied
with service `'flavortown'`, and the legacy table is dropped; if `user_keys`
exists with a `service` column nothing happens; if it is absent the new
table is created empty. -/
def initSchema : Schema → Schema
  | .empty => .current []
  | .legacy rows => .current (rows.map migrateRow)
  | .current rows => .current rows

/-- The `_db_initialized` flag plus the durable schema. -/
structure StoreState where
  initDone : Bool
  schema : Schema
deriving DecidableEq, Repr

/-- `_get_connection` from `bot/storage.py` (its schema-evolution effect):
the double-checked `_db_initialized` flag makes the initialization block run
at most once per process. -/
def get_connection (st : StoreState) : StoreState :=
  if st.initDone then st else ⟨true, initSchema st.schema⟩

/-- The durable (on-disk) `user_keys` table if the process dies after `k`
of the five migration events (`ALTER TABLE RENAME`, `CREATE TABLE`,
`INSERT ... SELECT`, `DROP TABLE`, `conn.commit()`).  Python sqlite3's
legacy transaction control issues an implicit BEGIN only before DML, so the
ALTER and the CREATE autocommit and are durable at once, while the INSERT
opens the implicit transaction, the DROP joins it, and both become durable
only at the commit.  An interruption with `1 ≤ k ≤ 4` therefore durably
loses the legacy rows from `user_keys` — they survive only in the stranded
`user_keys_v1` table, see `durableV1`: after the ALTER the `user_keys`
table is absent, and from the CREATE until the commit it is the empty
multi-service table. -/
def durableSchema (rows : List LegacyRow) (k : Nat) : Schema :=
  if k = 0 then .legacy rows
  else if k = 1 then .empty
  else if k ≤ 4 then .current []
  else .current (rows.map migrateRow)

/-- The stranded `user_keys_v1` table after `k` migration events: created
durably by the autocommitted ALTER, gone again only once the commit makes
the DROP durable (the uncommitted DROP at `k = 4` rolls back). -/
def durableV1 (rows : List LegacyRow) (k : Nat) : Option (List LegacyRow) :=
  if k = 0 then none
  else if k ≤ 4 then some rows
  else none

/-- `store_encrypted_key` from `bot/storage.py`: `INSERT ... ON
CONFLICT(discord_id, service) DO UPDATE`, i.e. upsert keyed on
`(discord_id, service)`. -/
def store_encrypted_key (rows : List KeyRow) (discord_id : Nat) (service : String)
    (encrypted_key salt : Crypto.PyStr) (metadata : Option String) : List KeyRow :=
  if rows.any (fun r => r.discord_id == discord_id && r.service == service) then
    rows.map (fun r =>
      if r.discord_id == discord_id && r.service == service then
        ⟨discord_id, service, encrypted_key, salt, metadata⟩
      else r)
  else rows ++ [⟨discord_id, service, encrypted_key, salt, metadata⟩]

/-- `get_encrypted_key` from `bot/storage.py`: `SELECT encrypted_key, salt,
metadata ... WHERE discord_id = ? AND service = ?`, first row or `None`. -/
def get_encrypted_key (rows : List KeyRow) (discord_id : Nat) (service : String) :
    Option (Crypto.PyStr × Crypto.PyStr × Option String) :=
  (rows.find? (fun r => r.discord_id == discord_id && r.service == service)).map
    (fun r => (r.encrypted_key, r.salt, r.metadata))

/-- `delete_user_key` from `bot/storage.py`: the guard `if service:` is
Python truthiness, so a non-empty service name deletes the
`(discord_id, service)` row, while `None` — and likewise the falsy empty
string — deletes all of the user's rows.  Returns `cursor.rowcount > 0`, a
boolean, not the removed count. -/
def delete_user_key (rows : List KeyRow) (discord_id : Nat) (service : Option String) :
    Bool × List KeyRow :=
  let remaining := match service with
    | some svc =>
      if svc = "" then rows.filter (fun r => !(r.discord_id == discord_id))
      else rows.filter (fun r => !(r.discord_id == discord_id && r.service == svc))
    | none => rows.filter (fun r => !(r.discord_id == discord_id))
  (decide (0 < rows.length - remaining.length), remaining)

/-- `user_has_key` from `bot/storage.py`. -/
def user_has_key (rows : List KeyRow) (discord_id : Nat) (service : String) : Bool :=
  rows.any (fun r => r.discord_id == discord_id && r.service == service)

end Storage

namespace Login

/-- One value of the inner per-service dict of `SESSION_CACHE` in
`bot/cogs/login.py`: the decrypted key, the parsed metadata (kept as the
stored JSON string), and the expiry timestamp (`time.time()` seconds, as a
rational). -/
structure SessionEntry where
  key : String
  metadata : Option String
  expires : ℚ
deriving DecidableEq, Repr

/-- `SESSION_CACHE`: a dict from user id to a dict from service name to
entry, modelled as nested association lists with first-match semantics. -/
abbrev Cache := List (Nat × List (String × SessionEntry))

/-- `SESSION_TIMEOUT = 7200` seconds (2 hours). -/
def SESSION_TIMEOUT : ℚ := 7200

/-- Dict update `d[service] = e` on the inner dict: replace the first
binding or append a new one. -/
def putService : List (String × SessionEntry) → String → SessionEntry →
    List (String × SessionEntry)
  | [], service, e => [(service, e)]
  | (k, v) :: rest, service, e =>
    if k = service then (service, e) :: rest else (k, v) :: putService rest service e

/-- Dict lookup `d[service]` on the inner dict. -/
def lookupService : List (String × SessionEntry) → String → Option SessionEntry
  | [], _ => none
  | (k, v) :: rest, service => if k = service then some v else lookupService rest service

/-- Dict removal `del d[service]` on the inner dict. -/
def removeService : List (String × SessionEntry) → String → List (String × SessionEntry)
  | [], _ => []
  | (k, v) :: rest, service => if k = service then rest else (k, v) :: removeService rest service

/-- `SESSION_CACHE[user][service] = e` (creating the user dict if absent,
as `get_api_key_for_user` and `UnlockModal.on_submit` do). -/
def cachePut : Cache → Nat → String → SessionEntry → Cache
  | [], user, service, e => [(user, [(service, e)])]
  | (u, m) :: rest, user, service, e =>
    if u = user then (u, putService m service e) :: rest
    else (u, m) :: cachePut rest user service e

/-- `user_id in SESSION_CACHE and service in SESSION_CACHE[user_id]`
followed by the lookup. -/
def cacheLookup : Cache → Nat → String → Option SessionEntry
  | [], _, _ => none
  | (u, m) :: rest, user, service =>
    if u = user then lookupService m service else cacheLookup rest user service

/-- `del SESSION_CACHE[user][service]`, then `del SESSION_CACHE[user]` if
the user's dict became empty (the expired-entry cleanup in
`get_api_key_for_user`). -/
def cacheRemove : Cache → Nat → String → Cache
  | [], _, _ => []
  | (u, m) :: rest, user, service =>
    if u = user then
      if (removeService m service).isEmpty then rest
      else (u, removeService m service) :: rest
    else (u, m) :: cacheRemove rest user service

/-- `del SESSION_CACHE[user]`. -/
def clearUser : Cache → Nat → Cache
  | [], _ => []
  | (u, m) :: rest, user => if u = user then rest else (u, m) :: clearUser rest user

/-- `clear_user_session` from `bot/cogs/login.py`. -/
def clear_user_session (cache : Cache) (user : Nat) : Bool × Cache :=
  if cache.any (fun p => p.1 == user) then (true, clearUser cache user)
  else (false, cache)

/-- Python dicts cannot hold duplicate keys: well-formedness of the nested
association-list model of `SESSION_CACHE`. -/
def cacheWF (cache : Cache) : Prop :=
  (cache.map Prod.fst).Nodup ∧ ∀ p ∈ cache, (p.2.map Prod.fst).Nodup

/-- The miss path of `get_api_key_for_user`: with no password, return
`None`; otherwise load the stored ciphertext, decrypt, and on a truthy
(non-empty) decrypted key populate the cache with expiry
`now + SESSION_TIMEOUT`; the decrypted value is returned either way. -/
def afterMiss (cache : Cache) (db : List Storage.KeyRow) (now : ℚ) (user : Nat)
    (password : Option String) (service : String) : Option String × Cache :=
  match password with
  | none => (none, cache)
  | some pw =>
    match Storage.get_encrypted_key db user service with
    | none => (none, cache)
    | some (encrypted_key, salt, metadata) =>
      match Crypto.decryptValue encrypted_key salt pw with
      | some k =>
        if k = "" then (some k, cache)
        else (some k, cachePut cache user service ⟨k, metadata, now + SESSION_TIMEOUT⟩)
      | none => (none, cache)

/-- `get_api_key_for_user` from `bot/cogs/login.py`: on a cached,
unexpired entry return its key and slide the expiry to
`now + SESSION_TIMEOUT` (in-place dict mutation, modelled as `cachePut`);
on an expired entry remove it (and the user dict if now empty) and fall
through to the miss path. -/
def get_api_key_for_user (cache : Cache) (db : List Storage.KeyRow) (now : ℚ)
    (user : Nat) (password : Option String) (service : String) :
    Option String × Cache :=
  match cacheLookup cache user service with
  | some session =>
    if now < session.expires then
      (some session.key,
        cachePut cache user service { session with expires := now + SESSION_TIMEOUT })
    else
      afterMiss (cacheRemove cache user service) db now user password service
  | none => afterMiss cache db now user password service

/-- `BaseLoginModal.do_encryption_and_store` from `bot/cogs/login.py` (its
state effect): if the two password fields differ nothing is stored;
otherwise the api key is encrypted and upserted into the store.  The
session cache is not touched on either path. -/
def do_encryption_and_store (cache : Cache) (db : List Storage.KeyRow) (user : Nat)
    (api_key password password_confirm service : String) (metadata : Option String)
    (saltSeed nonce : Nat) : Cache × List Storage.KeyRow :=
  if password ≠ password_confirm then (cache, db)
  else
    let ek := Crypto.encrypt_api_key api_key password saltSeed nonce
    (cache, Storage.store_encrypted_key db user service ek.1 ek.2 metadata)

/-- `Login.logout` from `bot/cogs/login.py` (its state effect):
`clear_user_session(user)` then `delete_user_key(user, service-or-all)`. -/
def logout (cache : Cache) (db : List Storage.KeyRow) (user : Nat)
    (service : Option String) : Cache × List Storage.KeyRow :=
  ((clear_user_session cache user).2, (Storage.delete_user_key db user service).2)

end Login

/-! ## Helper lemmas -/

namespace Crypto

/-- `urlsafe_b64decode` either succeeds or raises `ValueError`. -/
theorem urlsafe_b64decode_cases (b : PyBytes) :
    urlsafe_b64decode b = .error .valueError ∨ ∃ x, urlsafe_b64decode b = .ok x := by
  cases b <;> simp [urlsafe_b64decode]

/-- `fernetDecrypt` either succeeds or raises `InvalidToken`. -/
theorem fernetDecrypt_cases (key t : PyBytes) :
    fernetDecrypt key t = .error .invalidToken ∨ ∃ m, fernetDecrypt key t = .ok m := by
  cases t <;> simp [fernetDecrypt]
  split <;> simp_all

/-- `bytesDecode` either succeeds or raises `UnicodeDecodeError` (a `ValueError`). -/
theorem bytesDecode_cases (b : PyBytes) :
    bytesDecode b = .error .valueError ∨ ∃ s, bytesDecode b = .ok s := by
  cases b <;> simp [bytesDecode]

end Crypto

namespace Http

theorem svcStats_bumpTotal (l : List (String × Nat × Nat)) (svc : String) :
    svcStats (bumpTotal l svc) svc = ((svcStats l svc).1 + 1, (svcStats l svc).2) := by
  induction l with
  | nil => simp [bumpTotal, svcStats]
  | cons p rest ih =>
    obtain ⟨k, t, e⟩ := p
    by_cases hk : k = svc <;> simp [bumpTotal, svcStats, hk, ih]

theorem svcStats_bumpErrors (l : List (String × Nat × Nat)) (svc : String) :
    svcStats (bumpErrors l svc) svc = ((svcStats l svc).1, (svcStats l svc).2 + 1) := by
  induction l with
  | nil => simp [bumpErrors, svcStats]
  | cons p rest ih =>
    obtain ⟨k, t, e⟩ := p
    by_cases hk : k = svc <;> simp [bumpErrors, svcStats, hk, ih]

theorem sum_bumpTotal (l : List (String × Nat × Nat)) (svc : String) :
    ((bumpTotal l svc).map (fun p => p.2.1)).sum = (l.map (fun p => p.2.1)).sum + 1 := by
  induction l with
  | nil => simp [bumpTotal]
  | cons p rest ih =>
    obtain ⟨k, t, e⟩ := p
    by_cases hk : k = svc <;> simp [bumpTotal, hk, ih] <;> omega

theorem sum_bumpErrors (l : List (String × Nat × Nat)) (svc : String) :
    ((bumpErrors l svc).map (fun p => p.2.1)).sum = (l.map (fun p => p.2.1)).sum := by
  induction l with
  | nil => simp [bumpErrors]
  | cons p rest ih =>
    obtain ⟨k, t, e⟩ := p
    by_cases hk : k = svc <;> simp [bumpErrors, hk, ih]

theorem pointwise_bumpTotal (l : List (String × Nat × Nat)) (svc : String)
    (h : ∀ p ∈ l, p.2.2 ≤ p.2.1) : ∀ p ∈ bumpTotal l svc, p.2.2 ≤ p.2.1 := by
  induction l with
  | nil =>
    intro p hp
    simp [bumpTotal] at hp
    simp [hp]
  | cons q rest ih =>
    obtain ⟨k, t, e⟩ := q
    intro p hp
    by_cases hk : k = svc
    · simp only [bumpTotal, if_pos hk] at hp
      rcases List.mem_cons.mp hp with rfl | hp
      · have := h (k, t, e) (List.mem_cons_self _ _)
        simp at this ⊢
        omega
      · exact h p (List.mem_cons_of_mem _ hp)
    · simp only [bumpTotal, if_neg hk] at hp
      rcases List.mem_cons.mp hp with rfl | hp
      · exact h (k, t, e) (List.mem_cons_self _ _)
      · exact ih (fun q hq => h q (List.mem_cons_of_mem _ hq)) p hp

theorem pointwise_bumpErrors_bumpTotal (l : List (String × Nat × Nat)) (svc : String)
    (h : ∀ p ∈ l, p.2.2 ≤ p.2.1) :
    ∀ p ∈ bumpErrors (bumpTotal l svc) svc, p.2.2 ≤ p.2.1 := by
  induction l with
  | nil =>
    intro p hp
    simp [bumpTotal, bumpErrors] at hp
    simp [hp]
  | cons q rest ih =>
    obtain ⟨k, t, e⟩ := q
    intro p hp
    by_cases hk : k = svc
    · simp only [bumpTotal, bumpErrors, if_pos hk] at hp
      rcases List.mem_cons.mp hp with rfl | hp
      · have := h (k, t, e) (List.mem_cons_self _ _)
        simp at this ⊢
        omega
      · exact h p (List.mem_cons_of_mem _ hp)
    · simp only [bumpTotal, bumpErrors, if_neg hk] at hp
      rcases List.mem_cons.mp hp with rfl | hp
      · exact h (k, t, e) (List.mem_cons_self _ _)
      · exact ih (fun q hq => h q (List.mem_cons_of_mem _ hq)) p hp

theorem statsInv_track_call (svc : String) (s : Stats) (h : statsInv s) :
    statsInv (track_call svc s) := by
  obtain ⟨h1, h2, h3⟩ := h
  refine ⟨by simp [track_call]; omega, ?_, ?_⟩
  · exact pointwise_bumpTotal _ _ h2
  · simp [track_call, sum_bumpTotal, h3]

theorem statsInv_track_error_call (svc : String) (s : Stats) (h : statsInv s) :
    statsInv (track_error svc (track_call svc s)) := by
  obtain ⟨h1, h2, h3⟩ := h
  refine ⟨by simp [track_call, track_error]; omega, ?_, ?_⟩
  · exact pointwise_bumpErrors_bumpTotal _ _ h2
  · simp [track_call, track_error, sum_bumpErrors, sum_bumpTotal, h3]

theorem requestGo_statsInv (script : Nat → AttemptOutcome) (action url service : String)
    (attempt : Nat) (stats : Stats) (sleeps : List ℚ) (attempts : Nat) :
    statsInv stats →
      statsInv (requestGo script action url service attempt stats sleeps attempts).stats := by
  refine requestGo.induct script action url service
    (fun attempt stats sleeps attempts =>
      statsInv stats →
        statsInv (requestGo script action url service attempt stats sleeps attempts).stats)
    ?_ ?_ ?_ ?_ ?_ attempt stats sleeps attempts
  · intro attempt stats sleeps attempts msg hs h
    rw [requestGo.eq_def]
    simp only [hs]
    exact statsInv_track_error_call _ _ h
  · intro attempt stats sleeps attempts stats1 status body hs hcond ih h
    rw [requestGo.eq_def]
    simp only [hs]
    rw [dif_pos hcond]
    exact ih (statsInv_track_call _ _ h)
  · intro attempt stats sleeps attempts body hs hcond h
    rw [requestGo.eq_def]
    simp only [hs]
    rw [dif_neg hcond, if_true]
    exact statsInv_track_error_call _ _ h
  · intro attempt stats sleeps attempts status body hs hcond h401 h4 h
    rw [requestGo.eq_def]
    simp only [hs]
    rw [dif_neg hcond, if_neg h401, if_pos h4]
    exact statsInv_track_error_call _ _ h
  · intro attempt stats sleeps attempts status body hs hcond h401 h4 h
    rw [requestGo.eq_def]
    simp only [hs]
    rw [dif_neg hcond, if_neg h401, if_neg h4]
    exact statsInv_track_call _ _ h

end Http

/-! ## Claim theorems -/

/-- C1: for every secret string and password (and every salt draw and
Fernet IV), encrypting with `encrypt_api_key` and decrypting the resulting
(ciphertext, salt) pair with the same password via `decrypt_api_key`
returns exactly the original secret. -/
theorem c1_crypto_round_trip (api_key password : String) (saltSeed nonce : Nat) :
    Crypto.decrypt_api_key (Crypto.encrypt_api_key api_key password saltSeed nonce).1
      (Crypto.encrypt_api_key api_key password saltSeed nonce).2 password =
      Except.ok (some api_key) := by
  simp [Crypto.decrypt_api_key, Crypto.encrypt_api_key, Crypto.strEncode,
    Crypto.urlsafe_b64decode, Crypto.urlsafe_b64encode, Crypto.derive_key,
    Crypto.fernetEncrypt, Crypto.fernetDecrypt, Crypto.bytesDecode,
    Bind.bind, Except.bind]

/-- C2: decrypting the output of `encrypt_api_key(secret, password)` with
any different password yields `None` — never the original and never a
corrupted string (ideal-KDF/ideal-MAC model: key derivation is injective
and the Fernet HMAC check admits no collisions). -/
theorem c2_wrong_password (api_key password password2 : String) (saltSeed nonce : Nat)
    (h : password2 ≠ password) :
    Crypto.decrypt_api_key (Crypto.encrypt_api_key api_key password saltSeed nonce).1
      (Crypto.encrypt_api_key api_key password saltSeed nonce).2 password2 =
      Except.ok none := by
  simp [Crypto.decrypt_api_key, Crypto.encrypt_api_key, Crypto.strEncode,
    Crypto.urlsafe_b64decode, Crypto.urlsafe_b64encode, Crypto.derive_key,
    Crypto.fernetEncrypt, Crypto.fernetDecrypt, Crypto.bytesDecode,
    Bind.bind, Except.bind, Ne.symm h]

/-- Witness for C2 at a concrete input. -/
theorem c2_wrong_password_witness :
    ("q" : String) ≠ "p" ∧
      Crypto.decrypt_api_key (Crypto.encrypt_api_key "k" "p" 0 1).1
        (Crypto.encrypt_api_key "k" "p" 0 1).2 "q" = Except.ok none :=
  ⟨by decide, c2_wrong_password "k" "p" "q" 0 1 (by decide)⟩

/-- C3: `decrypt_api_key` never raises: on every input — wrong passwords,
tampered or malformed base64, non-UTF-8 plaintext — every exception the
pipeline can produce is `InvalidToken` or a `ValueError`, both caught and
reported as the single uniform result `None` (`Except.ok` with an
`Option`). -/
theorem c3_decrypt_total (c s : Crypto.PyStr) (password : String) :
    ∃ r : Option String, Crypto.decrypt_api_key c s password = Except.ok r := by
  unfold Crypto.decrypt_api_key
  rcases Crypto.urlsafe_b64decode_cases (Crypto.strEncode c) with hc | ⟨enc, hc⟩ <;>
    rcases Crypto.urlsafe_b64decode_cases (Crypto.strEncode s) with hs | ⟨salt, hs⟩ <;>
      simp [hc, hs, Bind.bind, Except.bind]
  rcases Crypto.fernetDecrypt_cases (Crypto.derive_key password salt) enc with hf | ⟨m, hf⟩ <;>
    simp [hf]
  rcases Crypto.bytesDecode_cases m with hb | ⟨out, hb⟩ <;> simp [hb]

/-- C4: a 401 response is terminal: one attempt, no retry, no sleep, the
classified auth failure is raised, and the per-service call and error
counters each advance exactly once (as do the global ones). -/
theorem c4_auth_terminal (script : Nat → Http.AttemptOutcome) (action url service : String)
    (stats : Http.Stats) (body : String)
    (h0 : script 0 = Http.AttemptOutcome.response 401 body) :
    (Http.request script action url service stats).result =
      Http.ReqResult.failure (some 401)
        (Http.format_error action url (some 401) "Invalid API key or unauthorized access.") ∧
    (Http.request script action url service stats).attempts = 1 ∧
    (Http.request script action url service stats).sleeps = [] ∧
    (Http.request script action url service stats).stats.total_calls = stats.total_calls + 1 ∧
    (Http.request script action url service stats).stats.error_calls = stats.error_calls + 1 ∧
    Http.svcStats (Http.request script action url service stats).stats.by_service service =
      ((Http.svcStats stats.by_service service).1 + 1,
        (Http.svcStats stats.by_service service).2 + 1) := by
  unfold Http.request
  rw [Http.requestGo.eq_def]
  simp [h0, Http.max_retries, Http.track_call, Http.track_error,
    Http.svcStats_bumpTotal, Http.svcStats_bumpErrors]

/-- Witness for C4 at a concrete input. -/
theorem c4_auth_terminal_witness :
    (Http.request (fun _ => Http.AttemptOutcome.response 401 "bad") "Request" "http://x" "api"
        Http.initStats).result =
      Http.ReqResult.failure (some 401)
        (Http.format_error "Request" "http://x" (some 401)
          "Invalid API key or unauthorized access.") ∧
    (Http.request (fun _ => Http.AttemptOutcome.response 401 "bad") "Request" "http://x" "api"
        Http.initStats).attempts = 1 ∧
    (Http.request (fun _ => Http.AttemptOutcome.response 401 "bad") "Request" "http://x" "api"
        Http.initStats).sleeps = [] ∧
    (Http.request (fun _ => Http.AttemptOutcome.response 401 "bad") "Request" "http://x" "api"
        Http.initStats).stats.total_calls = Http.initStats.total_calls + 1 ∧
    (Http.request (fun _ => Http.AttemptOutcome.response 401 "bad") "Request" "http://x" "api"
        Http.initStats).stats.error_calls = Http.initStats.error_calls + 1 ∧
    Http.svcStats (Http.request (fun _ => Http.AttemptOutcome.response 401 "bad") "Request"
        "http://x" "api" Http.initStats).stats.by_service "api" =
      ((Http.svcStats Http.initStats.by_service "api").1 + 1,
        (Http.svcStats Http.initStats.by_service "api").2 + 1) :=
  c4_auth_terminal (fun _ => Http.AttemptOutcome.response 401 "bad") "Request" "http://x" "api"
    Http.initStats "bad" rfl

/-- C5: transient retry schedule.  A [503, 503, 200] script succeeds on the
third attempt with exactly 2 retries consumed, sleeping 0.5s then 1.0s, and
records 3 calls and no error; an all-transient script exhausts the 2
retries with the same sleeps and terminates with a classified failure
carrying the last observed status, recording exactly one error. -/
theorem c5_transient_retry (script1 script2 : Nat → Http.AttemptOutcome)
    (action url service : String) (stats : Http.Stats)
    (b0 b1 b2 c0 c1 c2 : String) (s0 s1 s2 : Nat)
    (h10 : script1 0 = Http.AttemptOutcome.response 503 b0)
    (h11 : script1 1 = Http.AttemptOutcome.response 503 b1)
    (h12 : script1 2 = Http.AttemptOutcome.response 200 b2)
    (h20 : script2 0 = Http.AttemptOutcome.response s0 c0)
    (h21 : script2 1 = Http.AttemptOutcome.response s1 c1)
    (h22 : script2 2 = Http.AttemptOutcome.response s2 c2)
    (ht0 : s0 = 502 ∨ s0 = 503 ∨ s0 = 504)
    (ht1 : s1 = 502 ∨ s1 = 503 ∨ s1 = 504)
    (ht2 : s2 = 502 ∨ s2 = 503 ∨ s2 = 504) :
    ((Http.request script1 action url service stats).result = Http.ReqResult.success b2 ∧
      (Http.request script1 action url service stats).attempts = 3 ∧
      (Http.request script1 action url service stats).sleeps = [1/2, 1] ∧
      (Http.request script1 action url service stats).stats.total_calls = stats.total_calls + 3 ∧
      (Http.request script1 action url service stats).stats.error_calls = stats.error_calls ∧
      Http.svcStats (Http.request script1 action url service stats).stats.by_service service =
        ((Http.svcStats stats.by_service service).1 + 3,
          (Http.svcStats stats.by_service service).2)) ∧
    ((∃ msg, (Http.request script2 action url service stats).result =
        Http.ReqResult.failure (some s2) msg) ∧
      (Http.request script2 action url service stats).attempts = 3 ∧
      (Http.request script2 action url service stats).sleeps = [1/2, 1] ∧
      (Http.request script2 action url service stats).stats.total_calls = stats.total_calls + 3 ∧
      (Http.request script2 action url service stats).stats.error_calls = stats.error_calls + 1) := by
  constructor
  · unfold Http.request
    rw [Http.requestGo.eq_def]
    simp only [h10, Http.max_retries]
    rw [dif_pos (by decide)]
    rw [Http.requestGo.eq_def]
    simp only [h11]
    rw [dif_pos (by decide)]
    rw [Http.requestGo.eq_def]
    simp only [h12]
    simp [Http.max_retries, Http.backoffs, Http.track_call, Http.svcStats_bumpTotal, one_div]
  · rcases ht0 with rfl | rfl | rfl <;> rcases ht1 with rfl | rfl | rfl <;>
      rcases ht2 with rfl | rfl | rfl <;>
    · unfold Http.request
      rw [Http.requestGo.eq_def]
      simp only [h20, Http.max_retries]
      rw [dif_pos (by decide)]
      rw [Http.requestGo.eq_def]
      simp only [h21]
      rw [dif_pos (by decide)]
      rw [Http.requestGo.eq_def]
      simp only [h22]
      simp [Http.max_retries, Http.backoffs, Http.track_call, Http.track_error,
        Http.svcStats_bumpTotal, Http.svcStats_bumpErrors, one_div]

/-- C10: after every sequence of `_request` invocations and resets,
starting from the initial `_STATS`, errors never exceed calls, per-service
errors never exceed per-service totals, and `total_calls` is the sum of the
per-service totals. -/
theorem c10_call_stats_consistency (ops : List Http.HttpOp) :
    Http.statsInv (Http.runOps ops) := by
  suffices h : ∀ s, Http.statsInv s → Http.statsInv (List.foldl Http.applyOp s ops) by
    exact h Http.initStats (by simp [Http.statsInv, Http.initStats])
  induction ops with
  | nil => intro s hs; simpa using hs
  | cons op rest ih =>
    intro s hs
    simp only [List.foldl_cons]
    apply ih
    cases op with
    | call script action url service =>
      simpa [Http.applyOp, Http.request] using
        Http.requestGo_statsInv script action url service 0 s [] 0 hs
    | reset => simp [Http.applyOp, Http.statsInv, Http.initStats]

namespace Login

theorem lookupService_putService (m : List (String × SessionEntry)) (service : String)
    (e : SessionEntry) : lookupService (putService m service e) service = some e := by
  induction m with
  | nil => simp [putService, lookupService]
  | cons p rest ih =>
    obtain ⟨k, v⟩ := p
    by_cases hk : k = service <;> simp [putService, lookupService, hk, ih]

theorem cacheLookup_cachePut (cache : Cache) (user : Nat) (service : String)
    (e : SessionEntry) : cacheLookup (cachePut cache user service e) user service = some e := by
  induction cache with
  | nil => simp [cachePut, cacheLookup, lookupService]
  | cons p rest ih =>
    obtain ⟨u, m⟩ := p
    by_cases hu : u = user <;>
      simp [cachePut, cacheLookup, hu, ih, lookupService_putService]

theorem lookupService_not_mem (m : List (String × SessionEntry)) (service : String)
    (h : ∀ q ∈ m, q.1 ≠ service) : lookupService m service = none := by
  induction m with
  | nil => simp [lookupService]
  | cons p rest ih =>
    obtain ⟨k, v⟩ := p
    have h1 : k ≠ service := h (k, v) (List.mem_cons_self _ _)
    simp [lookupService, h1]
    exact ih (fun q hq => h q (List.mem_cons_of_mem _ hq))

theorem lookupService_removeService (m : List (String × SessionEntry)) (service : String)
    (h : (m.map Prod.fst).Nodup) : lookupService (removeService m service) service = none := by
  induction m with
  | nil => simp [removeService, lookupService]
  | cons p rest ih =>
    obtain ⟨k, v⟩ := p
    rw [List.map_cons, List.nodup_cons] at h
    by_cases hk : k = service
    · rw [removeService, if_pos hk]
      apply lookupService_not_mem
      intro q hq hqs
      exact h.1 (List.mem_map.mpr ⟨q, hq, hqs.trans hk.symm⟩)
    · rw [removeService, if_neg hk, lookupService, if_neg hk]
      exact ih h.2

theorem cacheLookup_not_mem (cache : Cache) (user : Nat)
    (h : ∀ q ∈ cache, q.1 ≠ user) (service : String) :
    cacheLookup cache user service = none := by
  induction cache with
  | nil => simp [cacheLookup]
  | cons p rest ih =>
    obtain ⟨u, m⟩ := p
    have h1 : u ≠ user := h (u, m) (List.mem_cons_self _ _)
    simp [cacheLookup, h1]
    exact ih (fun q hq => h q (List.mem_cons_of_mem _ hq))

theorem cacheLookup_cacheRemove (cache : Cache) (user : Nat) (service : String)
    (hWF : cacheWF cache) : cacheLookup (cacheRemove cache user service) user service = none := by
  obtain ⟨hu, hs⟩ := hWF
  induction cache with
  | nil => simp [cacheRemove, cacheLookup]
  | cons p rest ih =>
    obtain ⟨u, m⟩ := p
    rw [List.map_cons, List.nodup_cons] at hu
    by_cases huu : u = user
    · have hrest : ∀ q ∈ rest, q.1 ≠ user := by
        intro q hq hqu
        exact hu.1 (List.mem_map.mpr ⟨q, hq, hqu.trans huu.symm⟩)
      by_cases hemp : (removeService m service).isEmpty
      · rw [cacheRemove, if_pos huu, if_pos hemp]
        exact cacheLookup_not_mem rest user hrest service
      · rw [cacheRemove, if_pos huu, if_neg hemp, cacheLookup, if_pos huu]
        exact lookupService_removeService m service
          (hs (u, m) (List.mem_cons_self _ _))
    · rw [cacheRemove, if_neg huu, cacheLookup, if_neg huu]
      exact ih hu.2 (fun q hq => hs q (List.mem_cons_of_mem _ hq))

theorem cacheLookup_clearUser (cache : Cache) (user : Nat)
    (h : (cache.map Prod.fst).Nodup) (service : String) :
    cacheLookup (clearUser cache user) user service = none := by
  induction cache with
  | nil => simp [clearUser, cacheLookup]
  | cons p rest ih =>
    obtain ⟨u, m⟩ := p
    rw [List.map_cons, List.nodup_cons] at h
    by_cases huu : u = user
    · rw [clearUser, if_pos huu]
      apply cacheLookup_not_mem
      intro q hq hqu
      exact h.1 (List.mem_map.mpr ⟨q, hq, hqu.trans huu.symm⟩)
    · rw [clearUser, if_neg huu, cacheLookup, if_neg huu]
      exact ih h.2

theorem cacheLookup_clear_user_session (cache : Cache) (user : Nat)
    (h : (cache.map Prod.fst).Nodup) (service : String) :
    cacheLookup (clear_user_session cache user).2 user service = none := by
  by_cases hany : cache.any (fun p => p.1 == user)
  · simp only [clear_user_session, if_pos hany]
    exact cacheLookup_clearUser cache user h service
  · simp only [clear_user_session, if_neg hany]
    apply cacheLookup_not_mem
    intro q hq hqu
    apply hany
    rw [List.any_eq_true]
    exact ⟨q, hq, by simp [hqu]⟩

end Login

/-- C6: the code violates the claim's interrupted-re-run safety.  With one
legacy row for user 9: a completed migration (all five events, `k = 5`)
re-opens to the migrated table in which the row is retrievable with its
original ciphertext and salt; but an interruption after the autocommitted
ALTER (`k = 1`) — or anywhere else before the commit (`k = 2, 3, 4`) —
durably strands the row in `user_keys_v1`, and re-opening the store then
merely creates (or keeps) an EMPTY `user_keys` table, in which
`get(9, "flavortown")` finds nothing, instead of completing the migration
as the claim requires. -/
theorem c6_migration_interrupt_bug :
    (Storage.get_connection
        ⟨false, Storage.durableSchema [⟨9, Crypto.PyStr.lit "e", Crypto.PyStr.lit "s", 0⟩] 5⟩ =
      ⟨true, Storage.Schema.current
        [⟨9, "flavortown", Crypto.PyStr.lit "e", Crypto.PyStr.lit "s", none⟩]⟩) ∧
    (Storage.get_encrypted_key
        [⟨9, "flavortown", Crypto.PyStr.lit "e", Crypto.PyStr.lit "s", none⟩] 9 "flavortown" =
      some (Crypto.PyStr.lit "e", Crypto.PyStr.lit "s", none)) ∧
    (Storage.get_connection
        ⟨false, Storage.durableSchema [⟨9, Crypto.PyStr.lit "e", Crypto.PyStr.lit "s", 0⟩] 1⟩ =
      ⟨true, Storage.Schema.current []⟩) ∧
    (Storage.get_connection
        ⟨false, Storage.durableSchema [⟨9, Crypto.PyStr.lit "e", Crypto.PyStr.lit "s", 0⟩] 2⟩ =
      ⟨true, Storage.Schema.current []⟩) ∧
    (Storage.get_connection
        ⟨false, Storage.durableSchema [⟨9, Crypto.PyStr.lit "e", Crypto.PyStr.lit "s", 0⟩] 3⟩ =
      ⟨true, Storage.Schema.current []⟩) ∧
    (Storage.get_connection
        ⟨false, Storage.durableSchema [⟨9, Crypto.PyStr.lit "e", Crypto.PyStr.lit "s", 0⟩] 4⟩ =
      ⟨true, Storage.Schema.current []⟩) ∧
    (Storage.durableV1 [⟨9, Crypto.PyStr.lit "e", Crypto.PyStr.lit "s", 0⟩] 1 =
      some [⟨9, Crypto.PyStr.lit "e", Crypto.PyStr.lit "s", 0⟩]) ∧
    (Storage.durableV1 [⟨9, Crypto.PyStr.lit "e", Crypto.PyStr.lit "s", 0⟩] 4 =
      some [⟨9, Crypto.PyStr.lit "e", Crypto.PyStr.lit "s", 0⟩]) ∧
    (Storage.get_encrypted_key ([] : List Storage.KeyRow) 9 "flavortown" = none) := by
  decide

/-- C7: for a cached entry, a read before the expiry returns the cached
secret and slides the expiry to now + SESSION_TIMEOUT (7200 s); a read at
or after the expiry returns a miss and removes the expired entry from the
cache. -/
theorem c7_sliding_expiry (cache : Login.Cache) (db : List Storage.KeyRow) (now : ℚ)
    (user : Nat) (service : String) (entry : Login.SessionEntry)
    (hWF : Login.cacheWF cache)
    (hlook : Login.cacheLookup cache user service = some entry) :
    (now < entry.expires →
      ∀ password,
        (Login.get_api_key_for_user cache db now user password service).1 =
          some entry.key ∧
        Login.cacheLookup
            (Login.get_api_key_for_user cache db now user password service).2 user service =
          some { entry with expires := now + Login.SESSION_TIMEOUT }) ∧
    (entry.expires ≤ now →
      (Login.get_api_key_for_user cache db now user none service).1 = none ∧
      Login.cacheLookup
          (Login.get_api_key_for_user cache db now user none service).2 user service = none) := by
  constructor
  · intro hlt password
    simp only [Login.get_api_key_for_user, hlook, if_pos hlt]
    exact ⟨trivial, Login.cacheLookup_cachePut cache user service _⟩
  · intro hge
    simp only [Login.get_api_key_for_user, hlook, if_neg (not_lt.mpr hge), Login.afterMiss]
    exact ⟨trivial, Login.cacheLookup_cacheRemove cache user service hWF⟩

/-- Witness for C7 at a concrete input. -/
theorem c7_sliding_expiry_witness :
    (Login.cacheWF [(1, [("flavortown", ⟨"KEY", none, 10⟩)])] ∧
      Login.cacheLookup [(1, [("flavortown", ⟨"KEY", none, 10⟩)])] 1 "flavortown" =
        some ⟨"KEY", none, 10⟩) ∧
    (((10 : ℚ) ≤ 20) → (Login.get_api_key_for_user
        [(1, [("flavortown", ⟨"KEY", none, 10⟩)])] [] 20 1 none "flavortown").1 = none ∧
      Login.cacheLookup (Login.get_api_key_for_user
          [(1, [("flavortown", ⟨"KEY", none, 10⟩)])] [] 20 1 none "flavortown").2
        1 "flavortown" = none) :=
  ⟨⟨⟨by decide, by decide⟩, by decide⟩,
    (c7_sliding_expiry [(1, [("flavortown", ⟨"KEY", none, 10⟩)])] [] 20 1 "flavortown"
      ⟨"KEY", none, 10⟩ ⟨by decide, by decide⟩ (by decide)).2⟩

/-- C8 counterexample: re-storing a credential for (user 1, "flavortown")
under a new password via `do_encryption_and_store` leaves the session entry
decrypted from the old credential in the cache, contradicting the claim
that every password rotation purges it. -/
theorem c8_counterexample :
    Login.cacheLookup
        (Login.do_encryption_and_store [(1, [("flavortown", ⟨"OLDKEY", none, 100⟩)])]
          [] 1 "NEWKEY" "newpw" "newpw" "flavortown" none 5 7).1 1 "flavortown" =
      some ⟨"OLDKEY", none, 100⟩ ∧
    Login.cacheLookup
        (Login.do_encryption_and_store [(1, [("flavortown", ⟨"OLDKEY", none, 100⟩)])]
          [] 1 "NEWKEY" "newpw" "newpw" "flavortown" none 5 7).1 1 "flavortown" ≠ none := by
  constructor <;> decide

/-- C8 amended: after every forget (`logout`) the session cache holds no
entry for that user (for any service, hence none decrypted from the old
credential); a password rotation via `do_encryption_and_store`, however,
leaves the session cache entirely unchanged — it does not purge the entry
for the re-stored (user, service). -/
theorem c8_cache_invalidation_amended (cache : Login.Cache) (db : List Storage.KeyRow)
    (user : Nat) (svcOpt : Option String) (service : String)
    (hWF : (cache.map Prod.fst).Nodup) :
    Login.cacheLookup (Login.logout cache db user svcOpt).1 user service = none ∧
    ∀ (user2 : Nat) (api_key pw pwc svc2 : String) (md : Option String) (seed nonce : Nat),
      (Login.do_encryption_and_store cache db user2 api_key pw pwc svc2 md seed nonce).1 =
        cache := by
  constructor
  · exact Login.cacheLookup_clear_user_session cache user hWF service
  · intro user2 api_key pw pwc svc2 md seed nonce
    rw [Login.do_encryption_and_store]
    split <;> rfl

/-- Witness for C8 amended. -/
theorem c8_cache_invalidation_amended_witness :
    (([(1, [("flavortown", (⟨"K", none, 10⟩ : Login.SessionEntry))])] :
        Login.Cache).map Prod.fst).Nodup ∧
    Login.cacheLookup
        (Login.logout [(1, [("flavortown", ⟨"K", none, 10⟩)])] [] 1 none).1 1 "flavortown" =
      none :=
  ⟨by decide,
    (c8_cache_invalidation_amended [(1, [("flavortown", ⟨"K", none, 10⟩)])] [] 1 none
      "flavortown" (by decide)).1⟩

/-- C9 counterexample: user 7 has two service rows; deleting all of them
removes 2 rows, but `delete_user_key` returns the boolean `True`
(`cursor.rowcount > 0`), whose integer value is 1, not the removed count
2. -/
theorem c9_counterexample :
    (Storage.delete_user_key
        [⟨7, "flavortown", Crypto.PyStr.lit "e1", Crypto.PyStr.lit "s1", none⟩,
          ⟨7, "hackatime", Crypto.PyStr.lit "e2", Crypto.PyStr.lit "s2", none⟩] 7 none).1 =
      true ∧
    ([⟨7, "flavortown", Crypto.PyStr.lit "e1", Crypto.PyStr.lit "s1", none⟩,
        ⟨7, "hackatime", Crypto.PyStr.lit "e2", Crypto.PyStr.lit "s2", none⟩] :
      List Storage.KeyRow).length -
      (Storage.delete_user_key
        [⟨7, "flavortown", Crypto.PyStr.lit "e1", Crypto.PyStr.lit "s1", none⟩,
          ⟨7, "hackatime", Crypto.PyStr.lit "e2", Crypto.PyStr.lit "s2", none⟩] 7 none).2.length
      = 2 ∧
    (cond (Storage.delete_user_key
        [⟨7, "flavortown", Crypto.PyStr.lit "e1", Crypto.PyStr.lit "s1", none⟩,
          ⟨7, "hackatime", Crypto.PyStr.lit "e2", Crypto.PyStr.lit "s2", none⟩] 7 none).1
      (1 : Nat) 0) ≠ 2 := by
  refine ⟨by decide, by decide, by decide⟩

theorem length_filter_lt_iff {α : Type} (l : List α) (p : α → Bool) :
    (l.filter p).length < l.length ↔ ∃ x ∈ l, ¬ p x := by
  induction l with
  | nil => simp
  | cons a t ih =>
    by_cases hp : p a
    · simp [List.filter_cons, hp, Nat.succ_lt_succ_iff, ih]
    · simp only [List.filter_cons, hp, Bool.false_eq_true, if_false]
      constructor
      · intro hlen
        exact ⟨a, List.mem_cons_self _ _, by simp [hp]⟩
      · intro hex
        exact Nat.lt_succ_of_le (List.length_filter_le p t)

/-- C9 amended: `delete_user_key` returns a boolean that is true exactly
when at least one credential row matched (false when nothing matched), not
the removed count, and removes precisely the matching rows: deleting with
`None` — or with the falsy empty-string service, since the source checks
Python truthiness `if service:` — removes all of the user's service rows,
while a non-empty service name removes the single (user, service) row. -/
theorem c9_delete_returns_flag (rows : List Storage.KeyRow) (discord_id : Nat) :
    ((Storage.delete_user_key rows discord_id none).1 = true ↔
      ∃ r ∈ rows, r.discord_id = discord_id) ∧
    (Storage.delete_user_key rows discord_id none).2 =
      rows.filter (fun r => !(r.discord_id == discord_id)) ∧
    (Storage.delete_user_key rows discord_id (some "")).1 =
      (Storage.delete_user_key rows discord_id none).1 ∧
    (Storage.delete_user_key rows discord_id (some "")).2 =
      (Storage.delete_user_key rows discord_id none).2 ∧
    ∀ svc, svc ≠ "" →
      ((Storage.delete_user_key rows discord_id (some svc)).1 = true ↔
        ∃ r ∈ rows, r.discord_id = discord_id ∧ r.service = svc) ∧
      (Storage.delete_user_key rows discord_id (some svc)).2 =
        rows.filter (fun r => !(r.discord_id == discord_id && r.service == svc)) := by
  refine ⟨?_, rfl, rfl, rfl, fun svc hsvc => ⟨?_, ?_⟩⟩
  · rw [Storage.delete_user_key]
    simp only [decide_eq_true_eq]
    rw [tsub_pos_iff_lt, length_filter_lt_iff]
    simp
  · rw [Storage.delete_user_key]
    simp only [if_neg hsvc, decide_eq_true_eq]
    rw [tsub_pos_iff_lt, length_filter_lt_iff]
    simp
  · rw [Storage.delete_user_key]
    simp only [if_neg hsvc]

/-- Witness for C9 amended at a concrete input. -/
theorem c9_delete_returns_flag_witness :
    ("flavortown" : String) ≠ "" ∧
    (((Storage.delete_user_key
          [⟨7, "flavortown", Crypto.PyStr.lit "e1", Crypto.PyStr.lit "s1", none⟩] 7
          (some "flavortown")).1 = true ↔
        ∃ r ∈ ([⟨7, "flavortown", Crypto.PyStr.lit "e1", Crypto.PyStr.lit "s1", none⟩] :
            List Storage.KeyRow),
          r.discord_id = 7 ∧ r.service = "flavortown") ∧
      (Storage.delete_user_key
          [⟨7, "flavortown", Crypto.PyStr.lit "e1", Crypto.PyStr.lit "s1", none⟩] 7
          (some "flavortown")).2 =
        ([⟨7, "flavortown", Crypto.PyStr.lit "e1", Crypto.PyStr.lit "s1", none⟩] :
          List Storage.KeyRow).filter
          (fun r => !(r.discord_id == 7 && r.service == "flavortown"))) :=
  ⟨by decide,
    (c9_delete_returns_flag
        [⟨7, "flavortown", Crypto.PyStr.lit "e1", Crypto.PyStr.lit "s1", none⟩] 7).2.2.2.2
      "flavortown" (by decide)⟩

/-- Witness for C5 at concrete inputs. -/
theorem c5_transient_retry_witness :
    (((fun n => if n = 0 then Http.AttemptOutcome.response 503 "a"
        else if n = 1 then Http.AttemptOutcome.response 503 "b"
        else Http.AttemptOutcome.response 200 "ok") : Nat → Http.AttemptOutcome) 0 =
      Http.AttemptOutcome.response 503 "a") ∧
    ((Http.request (fun n => if n = 0 then Http.AttemptOutcome.response 503 "a"
        else if n = 1 then Http.AttemptOutcome.response 503 "b"
        else Http.AttemptOutcome.response 200 "ok") "Request" "http://x" "api"
        Http.initStats).result = Http.ReqResult.success "ok" ∧
      (Http.request (fun n => if n = 0 then Http.AttemptOutcome.response 503 "a"
        else if n = 1 then Http.AttemptOutcome.response 503 "b"
        else Http.AttemptOutcome.response 200 "ok") "Request" "http://x" "api"
        Http.initStats).attempts = 3 ∧
      (Http.request (fun n => if n = 0 then Http.AttemptOutcome.response 503 "a"
        else if n = 1 then Http.AttemptOutcome.response 503 "b"
        else Http.AttemptOutcome.response 200 "ok") "Request" "http://x" "api"
        Http.initStats).sleeps = [1/2, 1]) ∧
    ((∃ msg, (Http.request (fun _ => Http.AttemptOutcome.response 503 "x") "Request" "http://x"
        "api" Http.initStats).result = Http.ReqResult.failure (some 503) msg) ∧
      (Http.request (fun _ => Http.AttemptOutcome.response 503 "x") "Request" "http://x" "api"
        Http.initStats).stats.error_calls = Http.initStats.error_calls + 1) := by
  have h := c5_transient_retry
    (fun n => if n = 0 then Http.AttemptOutcome.response 503 "a"
      else if n = 1 then Http.AttemptOutcome.response 503 "b"
      else Http.AttemptOutcome.response 200 "ok")
    (fun _ => Http.AttemptOutcome.response 503 "x")
    "Request" "http://x" "api" Http.initStats
    "a" "b" "ok" "x" "x" "x" 503 503 503
    rfl rfl rfl rfl rfl rfl (by decide) (by decide) (by decide)
  exact ⟨rfl, ⟨h.1.1, h.1.2.1, h.1.2.2.1⟩, h.2.1, h.2.2.2.2.2⟩
